import Mathlib

/- Verification of the horse-racing analysis pipeline implemented in App.py:
   form-code parsing, feature-table confidence, ensemble-trainer guards, raw
   data preparation, race-type auto-detection, score blending and ranking.
   Numeric values are modelled over ℚ (exact arithmetic) and ℝ where a square
   root appears; DataFrame cells that may be NaN are modelled as Option ℚ. -/

namespace App

/-- Numeric value of a digit character, as Python's int(c) on a digit. -/
def charVal (c : Char) : ℕ := c.toNat - 48

/-- Finishing positions extracted from a form code, App.py line 122:
    positions = [int(c) for c in music if c.isdigit() and int(c) > 0]. -/
def extractPositions (music : String) : List ℕ :=
  (music.data.filter (fun c => c.isDigit && decide (0 < charVal c))).map charVal

/-- Arithmetic mean of a list of rationals (np.mean; 0 for the empty list
    because division by zero is zero in Lean). -/
def meanQ (l : List ℚ) : ℚ := l.sum / l.length

/-- Population variance (np.var, ddof = 0). -/
def popVarQ (l : List ℚ) : ℚ := (l.map (fun x => (x - meanQ l) ^ 2)).sum / l.length

/-- Population standard deviation (np.std, ddof = 0). -/
noncomputable def npStd (l : List ℚ) : ℝ := Real.sqrt ((popVarQ l : ℝ))

/-- Cast a list of naturals to rationals. -/
def posQ (l : List ℕ) : List ℚ := l.map (fun n => (n : ℚ))

/-- Result record of extract_music_features, App.py lines 143-154. -/
structure FormSummary where
  wins : ℕ
  places : ℕ
  total_races : ℕ
  win_rate : ℚ
  place_rate : ℚ
  consistency : ℝ
  recent_form : ℚ
  best_position : ℕ
  avg_position : ℚ
  position_variance : ℚ

/-- Neutral default summary returned for missing or digit-free form codes,
    App.py lines 113-119 and 124-130. -/
def neutralSummary : FormSummary :=
  { wins := 0, places := 0, total_races := 0, win_rate := 0, place_rate := 0
    consistency := 0, recent_form := 0, best_position := 10
    avg_position := 8, position_variance := 5 }

/-- Summary computed from a nonempty position list, App.py lines 132-154.
    Note line 141: consistency = 1 / (np.std(positions) + 1) only when
    len(positions) > 1, and 0 otherwise. -/
noncomputable def summarize (positions : List ℕ) : FormSummary :=
  let total := positions.length
  let wins := positions.count 1
  let places := (positions.filter (fun p => p ≤ 3)).length
  let recent := positions.take 3
  { wins := wins
    places := places
    total_races := total
    win_rate := if 0 < total then (wins : ℚ) / total else 0
    place_rate := if 0 < total then (places : ℚ) / total else 0
    consistency := if 1 < positions.length then 1 / (npStd (posQ positions) + 1) else 0
    recent_form := if recent ≠ [] then ((recent.map (fun p => 1 / (p : ℚ))).sum) / recent.length else 0
    best_position := positions.min?.getD 10
    avg_position := meanQ (posQ positions)
    position_variance := popVarQ (posQ positions) }

/-- Form Parser, App.py lines 111-154 (extract_music_features).  A missing
    cell (pd.isna) is modelled as none. -/
noncomputable def extract_music_features (music : Option String) : FormSummary :=
  match music with
  | none => neutralSummary
  | some s =>
    if s = (r"") then neutralSummary
    else if extractPositions s = [] then neutralSummary
    else summarize (extractPositions s)

/-- Claim C1, counterexample: the form code with the single position 3 gets
    consistency 0 from the code (App.py line 141 special-cases a single
    position to 0), while the claimed formula 1 / (std + 1) gives 1. -/
theorem c1_single_position_counterexample :
    (extract_music_features (some (r"3"))).consistency = 0 ∧
    1 / (npStd (posQ (extractPositions (r"3"))) + 1) = 1 ∧
    (0 : ℝ) ≠ 1 := by
  refine ⟨?_, ?_, by norm_num⟩
  · have h3 : extractPositions (r"3") = [3] := by decide
    simp [extract_music_features, h3, summarize]
  · have h3 : extractPositions (r"3") = [3] := by decide
    rw [h3]
    have hv : popVarQ (posQ [3]) = 0 := by
      simp [popVarQ, posQ, meanQ]
    simp [npStd, hv, Real.sqrt_zero]

/-- Claim C1, amended: for a form code with at least two extracted positions,
    consistency equals 1 / (population standard deviation + 1); for exactly
    one extracted position the code returns consistency 0 (not 1 as the
    claim states). -/
theorem c1_consistency_amended (s : String) :
    (2 ≤ (extractPositions s).length →
      (extract_music_features (some s)).consistency =
        1 / (npStd (posQ (extractPositions s)) + 1)) ∧
    ((extractPositions s).length = 1 →
      (extract_music_features (some s)).consistency = 0) := by
  constructor
  · intro h2
    have hne : extractPositions s ≠ [] := by
      intro h
      rw [h] at h2
      simp at h2
    have hs : s ≠ (r"") := by
      intro h
      rw [h] at hne
      exact hne rfl
    have h1 : 1 < (extractPositions s).length := h2
    simp [extract_music_features, hs, hne, summarize, h1]
  · intro h1
    have hne : extractPositions s ≠ [] := by
      intro h
      rw [h] at h1
      simp at h1
    have hs : s ≠ (r"") := by
      intro h
      rw [h] at hne
      exact hne rfl
    have hnlt : ¬ 1 < (extractPositions s).length := by omega
    simp [extract_music_features, hs, hne, summarize, hnlt]

/-- Witness for the amended claim C1 at the concrete form code 12. -/
theorem c1_consistency_witness :
    2 ≤ (extractPositions (r"12")).length ∧
    (extract_music_features (some (r"12"))).consistency =
      1 / (npStd (posQ (extractPositions (r"12"))) + 1) :=
  ⟨by decide, (c1_consistency_amended (r"12")).1 (by decide)⟩

/-- Claim C9: every extracted position is a single digit in 1..9, zero digits
    are dropped, and the code 10 is parsed as the single position 1, hence
    counted as a win with win rate 1. -/
theorem c9_digitwise_positions :
    (∀ music : String, ∀ p ∈ extractPositions music, 1 ≤ p ∧ p ≤ 9) ∧
    extractPositions (r"10") = [1] ∧
    (extract_music_features (some (r"10"))).wins = 1 ∧
    (extract_music_features (some (r"10"))).total_races = 1 ∧
    (extract_music_features (some (r"10"))).win_rate = 1 := by
  refine ⟨?_, by decide, ?_, ?_, ?_⟩
  · intro music p hp
    simp only [extractPositions, List.mem_map, List.mem_filter] at hp
    obtain ⟨c, ⟨_, hc⟩, rfl⟩ := hp
    simp only [Bool.and_eq_true, decide_eq_true_eq] at hc
    obtain ⟨hdig, hpos⟩ := hc
    have h9 : c.toNat ≤ 57 := by
      have := hdig
      simp only [Char.isDigit] at this
      simp only [Bool.and_eq_true, decide_eq_true_eq] at this
      exact this.2
    constructor
    · omega
    · simp only [charVal]
      omega
  all_goals
    have h10 : extractPositions (r"10") = [1] := by decide
    simp [extract_music_features, h10, summarize]

/-- Witness for claim C9 at the code 10 and the extracted position 1. -/
theorem c9_digitwise_witness : 1 ≤ 1 ∧ 1 ≤ 9 :=
  c9_digitwise_positions.1 (r"10") 1 (by decide)

/-- One DataFrame cell; NaN is modelled as none. -/
abbrev Cell := Option ℚ

/-- Number of NaN cells in one row (X.isna().sum(axis=1) for that row). -/
def countNone (row : List Cell) : ℕ := (row.filter (fun c => c.isNone)).length

/-- DataFrame.fillna(0), App.py line 231: every NaN cell becomes 0.  The
    feature table handed to the trainer is always the output of
    prepare_advanced_features, which ends in .fillna(0). -/
def fillna0 (X : List (List Cell)) : List (List Cell) :=
  X.map (fun row => row.map (fun c => some (c.getD 0)))

/-- np.clip(x, 0, 1). -/
noncomputable def clip01 (x : ℝ) : ℝ := max 0 (min 1 x)

/-- Arithmetic mean over ℝ (0 for the empty list). -/
noncomputable def meanR (l : List ℝ) : ℝ := l.sum / l.length

/-- Population variance over ℝ (np.std has ddof = 0). -/
noncomputable def popVarR (l : List ℝ) : ℝ :=
  (l.map (fun x => (x - meanR l) ^ 2)).sum / l.length

/-- Population standard deviation over ℝ (np.std). -/
noncomputable def npStdR (l : List ℝ) : ℝ := Real.sqrt (popVarR l)

/-- calculate_prediction_confidence, App.py lines 267-283: constant 0.5 for
    fewer than 3 predictions; otherwise clip(base × row quality, 0, 1) with
    base = 1 / (1 + std of the prediction vector) and row quality
    1 - (row NaN count) / (number of feature columns), computed on the X it
    receives. -/
noncomputable def calculate_prediction_confidence
    (predictions : List ℝ) (X : List (List Cell)) : List ℝ :=
  if predictions.length < 3 then List.replicate predictions.length (1 / 2)
  else
    let base := 1 / (1 + npStdR predictions)
    X.map (fun row => clip01 (base * (1 - (countNone row : ℝ) / ((X.headD []).length : ℝ))))

/-- Modelled from the spec: per-row confidence as §4.3 words it, with the
    feature-completeness ratio taken from the table BEFORE imputation.  Used
    only to compare the spec sentence of claim C2 against the code. -/
noncomputable def confidence_per_spec
    (predictions : List ℝ) (Xraw : List (List Cell)) : List ℝ :=
  Xraw.map (fun row =>
    clip01 ((1 / (1 + npStdR predictions)) *
      (1 - (countNone row : ℝ) / ((Xraw.headD []).length : ℝ))))

/-- train_and_predict, App.py lines 285-362.  The sklearn model fitting and
    the cross-validation metrics are external library computations and are
    passed as oracles; the sub-5-row guard (lines 287-289) and the final
    confidence call (line 358) are the code modelled here. -/
noncomputable def train_and_predict
    (mlPredict : List (List Cell) → List ℝ)
    (mlMetrics : List (List Cell) → List (String × ℝ × ℝ))
    (X : List (List Cell)) :
    List ℝ × List (String × ℝ × ℝ) × List ℝ :=
  if X.length < 5 then (List.replicate X.length 0, [], List.replicate X.length 0)
  else
    (mlPredict X, mlMetrics X, calculate_prediction_confidence (mlPredict X) X)

/-- Constant confidence 0.5 used when ML is disabled, App.py line 754. -/
noncomputable def default_confidence (n : ℕ) : List ℝ := List.replicate n (1 / 2)

/-- Claim C2, counterexample: a 5-row table whose first row had one missing
    cell before imputation.  With a constant prediction vector the code gives
    every row confidence 1 (isna is computed after fillna(0), so the quality
    factor is always 1), while the spec formula gives the first row 0. -/
theorem c2_confidence_counterexample :
    5 ≤ ([[none], [some 1], [some 1], [some 1], [some 1]] : List (List Cell)).length ∧
    3 ≤ ([1, 1, 1, 1, 1] : List ℝ).length ∧
    calculate_prediction_confidence [1, 1, 1, 1, 1]
        (fillna0 [[none], [some 1], [some 1], [some 1], [some 1]]) ≠
      confidence_per_spec [1, 1, 1, 1, 1]
        [[none], [some 1], [some 1], [some 1], [some 1]] := by
  refine ⟨by simp, by simp, ?_⟩
  have hv : popVarR [1, 1, 1, 1, 1] = 0 := by
    norm_num [popVarR, meanR]
  have hstd : npStdR [1, 1, 1, 1, 1] = 0 := by
    rw [npStdR, hv, Real.sqrt_zero]
  intro h
  have h0 := congrArg (fun l => l.headD 37) h
  simp only [calculate_prediction_confidence, confidence_per_spec, fillna0,
    countNone, clip01, hstd] at h0
  norm_num at h0

/-- Claim C2, amended: for at least 3 predictions, every row of the table the
    trainer sees (which is fillna(0)-imputed) receives the same confidence
    clip(1 / (1 + std of the prediction vector), 0, 1); the per-row
    feature-completeness factor is identically 1 because missingness is
    measured after imputation. -/
theorem c2_confidence_amended (preds : List ℝ) (X : List (List Cell))
    (h5 : 5 ≤ X.length) (h3 : 3 ≤ preds.length) :
    calculate_prediction_confidence preds (fillna0 X) =
      List.replicate X.length (clip01 (1 / (1 + npStdR preds))) := by
  have hnlt : ¬ preds.length < 3 := by omega
  rw [calculate_prediction_confidence, if_neg hnlt]
  have hrow : ∀ row ∈ fillna0 X,
      clip01 ((1 / (1 + npStdR preds)) *
        (1 - (countNone row : ℝ) / (((fillna0 X).headD []).length : ℝ))) =
      clip01 (1 / (1 + npStdR preds)) := by
    intro row hrow
    simp only [fillna0, List.mem_map] at hrow
    obtain ⟨r0, _, rfl⟩ := hrow
    have hcn : countNone (r0.map (fun c => some (c.getD 0))) = 0 := by
      simp [countNone, List.filter_map]
    rw [hcn]
    norm_num
  calc (fillna0 X).map (fun row =>
        clip01 ((1 / (1 + npStdR preds)) *
          (1 - (countNone row : ℝ) / (((fillna0 X).headD []).length : ℝ))))
      = (fillna0 X).map (fun _ => clip01 (1 / (1 + npStdR preds))) :=
        List.map_congr_left hrow
    _ = List.replicate ((fillna0 X).length) (clip01 (1 / (1 + npStdR preds))) :=
        List.map_const' _ _
    _ = List.replicate X.length (clip01 (1 / (1 + npStdR preds))) := by
        rw [fillna0, List.length_map]

/-- Witness for the amended claim C2 at a concrete 5-row table. -/
theorem c2_confidence_witness :
    calculate_prediction_confidence [0, 0, 0]
        (fillna0 [[some 1], [none], [some 2], [some 3], [none]]) =
      List.replicate 5 (clip01 (1 / (1 + npStdR [0, 0, 0]))) :=
  c2_confidence_amended [0, 0, 0] [[some 1], [none], [some 2], [some 3], [none]]
    (by simp) (by simp)

/-- Claim C4: with fewer than 5 rows the trainer returns all-zero scores, an
    empty metrics map and all-zero confidence, for any model oracle; no
    exception path exists (the function is total). -/
theorem c4_below_threshold
    (mlPredict : List (List Cell) → List ℝ)
    (mlMetrics : List (List Cell) → List (String × ℝ × ℝ))
    (X : List (List Cell)) (h : X.length < 5) :
    train_and_predict mlPredict mlMetrics X =
      (List.replicate X.length 0, [], List.replicate X.length 0) := by
  rw [train_and_predict, if_pos h]

/-- Witness for claim C4 at a concrete 4-row table. -/
theorem c4_below_threshold_witness :
    (List.replicate 4 ([] : List Cell)).length < 5 ∧
    train_and_predict (fun _ => ([] : List ℝ))
        (fun _ => ([] : List (String × ℝ × ℝ)))
        (List.replicate 4 ([] : List Cell)) =
      (List.replicate 4 (0 : ℝ), ([] : List (String × ℝ × ℝ)),
        List.replicate 4 (0 : ℝ)) := by
  refine ⟨by simp, ?_⟩
  have h := c4_below_threshold (fun _ => ([] : List ℝ))
    (fun _ => ([] : List (String × ℝ × ℝ)))
    (List.replicate 4 ([] : List Cell)) (by simp)
  simpa using h

/-- Claim C8: every confidence value produced by any of the three paths (the
    confidence computation, the sub-5-row degraded path of the trainer, the
    ML-disabled default) lies in [0, 1]. -/
theorem c8_confidence_unit_interval :
    (∀ (preds : List ℝ) (X : List (List Cell)),
      ∀ c ∈ calculate_prediction_confidence preds X, 0 ≤ c ∧ c ≤ 1) ∧
    (∀ (p : List (List Cell) → List ℝ)
       (m : List (List Cell) → List (String × ℝ × ℝ))
       (X : List (List Cell)),
      ∀ c ∈ (train_and_predict p m X).2.2, 0 ≤ c ∧ c ≤ 1) ∧
    (∀ n : ℕ, ∀ c ∈ default_confidence n, 0 ≤ c ∧ c ≤ 1) := by
  have hclip : ∀ x : ℝ, 0 ≤ clip01 x ∧ clip01 x ≤ 1 := by
    intro x
    refine ⟨le_max_left 0 _, max_le (by norm_num) (min_le_left 1 x)⟩
  have hcalc : ∀ (preds : List ℝ) (X : List (List Cell)),
      ∀ c ∈ calculate_prediction_confidence preds X, 0 ≤ c ∧ c ≤ 1 := by
    intro preds X c hc
    rw [calculate_prediction_confidence] at hc
    by_cases h : preds.length < 3
    · rw [if_pos h] at hc
      have := (List.eq_of_mem_replicate hc)
      subst this
      norm_num
    · rw [if_neg h] at hc
      simp only [List.mem_map] at hc
      obtain ⟨row, _, rfl⟩ := hc
      exact hclip _
  refine ⟨hcalc, ?_, ?_⟩
  · intro p m X c hc
    rw [train_and_predict] at hc
    by_cases h : X.length < 5
    · rw [if_pos h] at hc
      simp only at hc
      have := List.eq_of_mem_replicate hc
      subst this
      norm_num
    · rw [if_neg h] at hc
      simp only at hc
      exact hcalc _ _ c hc
  · intro n c hc
    rw [default_confidence] at hc
    have := List.eq_of_mem_replicate hc
    subst this
    norm_num

/-- Witness for claim C8 on the short-prediction path. -/
theorem c8_confidence_witness : 0 ≤ (1 / 2 : ℝ) ∧ (1 / 2 : ℝ) ≤ 1 :=
  c8_confidence_unit_interval.1 [0] [] (1 / 2)
    (by rw [calculate_prediction_confidence, if_pos (by norm_num)]; simp)

/-- Minimum of a rational series (0 for the empty list; the pipeline only
    normalizes nonempty score columns). -/
def listMinQ (l : List ℚ) : ℚ := l.min?.getD 0

/-- Maximum of a rational series. -/
def listMaxQ (l : List ℚ) : ℚ := l.max?.getD 0

/-- Min-max normalization with the degenerate-range guard, App.py lines
    716-717 and 746-747: rescale only when max differs from min. -/
def minmax_normalize (l : List ℚ) : List ℚ :=
  if listMaxQ l ≠ listMinQ l then
    l.map (fun x => (x - listMinQ l) / (listMaxQ l - listMinQ l))
  else l

/-- Final blended score, App.py line 751:
    score_final = (1 - w) × traditional + w × ml, elementwise. -/
def score_final (w : ℚ) (traditional ml : List ℚ) : List ℚ :=
  List.zipWith (fun t e => (1 - w) * t + w * e) traditional ml

theorem length_minmax_normalize (l : List ℚ) :
    (minmax_normalize l).length = l.length := by
  rw [minmax_normalize]
  split
  · exact List.length_map l _
  · rfl

theorem score_final_zero (a b : List ℚ) (h : a.length = b.length) :
    score_final 0 a b = a := by
  induction a generalizing b with
  | nil => rfl
  | cons x xs ih =>
    cases b with
    | nil => simp at h
    | cons y ys =>
      simp only [score_final, List.zipWith_cons_cons]
      rw [show (1 - 0 : ℚ) * x + 0 * y = x by ring]
      exact congrArg (x :: ·) (ih ys (by simpa using h))

theorem score_final_one (a b : List ℚ) (h : a.length = b.length) :
    score_final 1 a b = b := by
  induction a generalizing b with
  | nil =>
    cases b with
    | nil => rfl
    | cons y ys => simp at h
  | cons x xs ih =>
    cases b with
    | nil => simp at h
    | cons y ys =>
      simp only [score_final, List.zipWith_cons_cons]
      rw [show (1 - 1 : ℚ) * x + 1 * y = y by ring]
      exact congrArg (y :: ·) (ih ys (by simpa using h))

/-- Claim C5: for any blend weight w in [0, 1] the final score is the affine
    blend of the two normalized score vectors, and it degenerates exactly to
    the normalized traditional vector at w = 0 and to the normalized ensemble
    vector at w = 1. -/
theorem c5_blend (w : ℚ) (T E : List ℚ) (h0 : 0 ≤ w) (h1 : w ≤ 1)
    (hlen : T.length = E.length) :
    score_final w (minmax_normalize T) (minmax_normalize E) =
      List.zipWith (fun t e => (1 - w) * t + w * e)
        (minmax_normalize T) (minmax_normalize E) ∧
    score_final 0 (minmax_normalize T) (minmax_normalize E) =
      minmax_normalize T ∧
    score_final 1 (minmax_normalize T) (minmax_normalize E) =
      minmax_normalize E := by
  have hl : (minmax_normalize T).length = (minmax_normalize E).length := by
    rw [length_minmax_normalize, length_minmax_normalize, hlen]
  exact ⟨rfl, score_final_zero _ _ hl, score_final_one _ _ hl⟩

/-- Witness for claim C5 at the slider default weight 0.7 and two concrete
    score columns. -/
theorem c5_blend_witness :
    score_final (7 / 10) (minmax_normalize [1, 3]) (minmax_normalize [2, 2]) =
      List.zipWith (fun t e => (1 - 7 / 10) * t + (7 / 10) * e)
        (minmax_normalize [1, 3]) (minmax_normalize [2, 2]) ∧
    score_final 0 (minmax_normalize [1, 3]) (minmax_normalize [2, 2]) =
      minmax_normalize [1, 3] ∧
    score_final 1 (minmax_normalize [1, 3]) (minmax_normalize [2, 2]) =
      minmax_normalize [2, 2] :=
  c5_blend (7 / 10) [1, 3] [2, 2] (by norm_num) (by norm_num) (by decide)

/-- Race-type profiles, the keys of CONFIGS in App.py lines 61-77. -/
inductive RaceType
  | PLAT
  | ATTELE_AUTOSTART
  | ATTELE_VOLTE
deriving DecidableEq

/-- Sample variance (pandas Series.std has ddof = 1).  Singleton lists, where
    pandas yields NaN, are outside this model. -/
noncomputable def sampleVarR (l : List ℝ) : ℝ :=
  (l.map (fun x => (x - meanR l) ^ 2)).sum / ((l.length : ℝ) - 1)

/-- Sample standard deviation (pandas Series.std). -/
noncomputable def pandas_std (l : List ℝ) : ℝ := Real.sqrt (sampleVarR l)

/-- auto_detect_race_type, App.py lines 427-450: std > 2.5 selects PLAT;
    otherwise mean > 65 and std < 1.5 selects ATTELE_AUTOSTART; otherwise
    PLAT is the fallback. -/
noncomputable def auto_detect_race_type (weights : List ℝ) : RaceType :=
  if 2.5 < pandas_std weights then RaceType.PLAT
  else if 65 < meanR weights ∧ pandas_std weights < 1.5 then RaceType.ATTELE_AUTOSTART
  else RaceType.PLAT

/-- Claim C6: the three detection branches behave as specified, and in
    particular weight std 3 selects PLAT while mean 67 with std 1 selects
    ATTELE_AUTOSTART. -/
theorem c6_auto_detect (weights : List ℝ) :
    (2.5 < pandas_std weights → auto_detect_race_type weights = RaceType.PLAT) ∧
    (¬ 2.5 < pandas_std weights → 65 < meanR weights → pandas_std weights < 1.5 →
      auto_detect_race_type weights = RaceType.ATTELE_AUTOSTART) ∧
    (¬ 2.5 < pandas_std weights → ¬ (65 < meanR weights ∧ pandas_std weights < 1.5) →
      auto_detect_race_type weights = RaceType.PLAT) ∧
    (pandas_std weights = 3 → auto_detect_race_type weights = RaceType.PLAT) ∧
    (pandas_std weights = 1 → meanR weights = 67 →
      auto_detect_race_type weights = RaceType.ATTELE_AUTOSTART) := by
  refine ⟨?_, ?_, ?_, ?_, ?_⟩
  · intro h
    rw [auto_detect_race_type, if_pos h]
  · intro hs hm hlt
    rw [auto_detect_race_type, if_neg hs, if_pos ⟨hm, hlt⟩]
  · intro hs hn
    rw [auto_detect_race_type, if_neg hs, if_neg hn]
  · intro h
    rw [auto_detect_race_type, if_pos (by rw [h]; norm_num)]
  · intro hs hm
    rw [auto_detect_race_type, if_neg (by rw [hs]; norm_num),
      if_pos ⟨by rw [hm]; norm_num, by rw [hs]; norm_num⟩]

/-- Witness for claim C6: weights 57, 60, 63 have sample std 3 and are
    classified PLAT; weights 66, 67, 68 have mean 67 and sample std 1 and are
    classified ATTELE_AUTOSTART. -/
theorem c6_auto_detect_witness :
    auto_detect_race_type [57, 60, 63] = RaceType.PLAT ∧
    auto_detect_race_type [66, 67, 68] = RaceType.ATTELE_AUTOSTART := by
  have hm1 : meanR [57, 60, 63] = 60 := by
    simp only [meanR, List.sum_cons, List.sum_nil, List.length_cons, List.length_nil]
    norm_num
  have hv1 : sampleVarR [57, 60, 63] = 9 := by
    simp only [sampleVarR, hm1, List.map_cons, List.map_nil, List.sum_cons,
      List.sum_nil, List.length_cons, List.length_nil]
    norm_num
  have hs1 : pandas_std [57, 60, 63] = 3 := by
    rw [pandas_std, hv1, show (9 : ℝ) = 3 ^ 2 by norm_num,
      Real.sqrt_sq (by norm_num : (0 : ℝ) ≤ 3)]
  have hm2 : meanR [66, 67, 68] = 67 := by
    simp only [meanR, List.sum_cons, List.sum_nil, List.length_cons, List.length_nil]
    norm_num
  have hv2 : sampleVarR [66, 67, 68] = 1 := by
    simp only [sampleVarR, hm2, List.map_cons, List.map_nil, List.sum_cons,
      List.sum_nil, List.length_cons, List.length_nil]
    norm_num
  have hs2 : pandas_std [66, 67, 68] = 1 := by
    rw [pandas_std, hv2, Real.sqrt_one]
  exact ⟨(c6_auto_detect [57, 60, 63]).2.2.2.1 hs1,
    (c6_auto_detect [66, 67, 68]).2.2.2.2 hs2 hm2⟩

/-- Python str(value).replace with comma mapped to dot, then strip, as in
    safe_convert, App.py line 406. -/
def clean_str (s : String) : String :=
  (String.mk (s.data.map (fun c => if c = ',' then '.' else c))).trim

/-- safe_convert, App.py lines 402-409.  The Python numeric constructor
    (float or int) is external; it is modelled as a conversion oracle that
    returns none exactly where Python would raise. -/
def safe_convert (conv : String → Option ℚ) (value : Option String)
    (default : ℚ) : ℚ :=
  match value with
  | none => default
  | some s => (conv (clean_str s)).getD default

/-- extract_weight inside prepare_data, App.py lines 416-420: the regex
    number search is an oracle; a missing cell or no match gives 60.0. -/
def extract_weight (findNum : String → Option ℚ) (poids : Option String) : ℚ :=
  match poids with
  | none => 60
  | some s => (findNum s).getD 60

/-- One raw input row with the three coerced columns (Cote, Numéro de corde,
    Poids); a NaN cell is none. -/
structure RawRow where
  cote : Option String
  corde : Option String
  poids : Option String
deriving DecidableEq

/-- One row after prepare_data coercion. -/
structure PreparedRow where
  odds_numeric : ℚ
  draw_numeric : ℚ
  weight_kg : ℚ
deriving DecidableEq

/-- Column coercion of one row, App.py lines 413-422. -/
def toPrepared (floatConv intConv findNum : String → Option ℚ)
    (r : RawRow) : PreparedRow :=
  { odds_numeric := safe_convert floatConv r.cote 999
    draw_numeric := safe_convert intConv r.corde 1
    weight_kg := extract_weight findNum r.poids }

/-- prepare_data, App.py lines 411-425: coerce the three columns with their
    defaults (999, 1, 60.0), then keep only rows with odds > 0. -/
def prepare_data (floatConv intConv findNum : String → Option ℚ)
    (df : List RawRow) : List PreparedRow :=
  (df.map (toPrepared floatConv intConv findNum)).filter
    (fun p => decide (0 < p.odds_numeric))

/-- Claim C7: every retained row has odds > 0, whatever the conversion
    oracles do; missing or unparseable draws and weights get the numeric
    defaults 1 and 60, and a missing odds cell gets the sentinel 999 (and
    the output type has no null, so the values are always numeric). -/
theorem c7_prepare_invariant (floatConv intConv findNum : String → Option ℚ)
    (df : List RawRow) :
    (∀ row ∈ prepare_data floatConv intConv findNum df, 0 < row.odds_numeric) ∧
    (∀ r : RawRow, r.corde = none →
      (toPrepared floatConv intConv findNum r).draw_numeric = 1) ∧
    (∀ (r : RawRow) (s : String), r.corde = some s → intConv (clean_str s) = none →
      (toPrepared floatConv intConv findNum r).draw_numeric = 1) ∧
    (∀ r : RawRow, r.poids = none →
      (toPrepared floatConv intConv findNum r).weight_kg = 60) ∧
    (∀ (r : RawRow) (s : String), r.poids = some s → findNum s = none →
      (toPrepared floatConv intConv findNum r).weight_kg = 60) ∧
    (∀ r : RawRow, r.cote = none →
      (toPrepared floatConv intConv findNum r).odds_numeric = 999) := by
  refine ⟨?_, ?_, ?_, ?_, ?_, ?_⟩
  · intro row hrow
    rw [prepare_data] at hrow
    exact of_decide_eq_true (List.mem_filter.mp hrow).2
  · intro r h
    simp [toPrepared, safe_convert, h]
  · intro r s hr hc
    simp [toPrepared, safe_convert, hr, hc]
  · intro r h
    simp [toPrepared, extract_weight, h]
  · intro r s hr hc
    simp [toPrepared, extract_weight, hr, hc]
  · intro r h
    simp [toPrepared, safe_convert, h]

/-- Witness for claim C7: a fully missing row under always-failing oracles is
    retained with odds 999 > 0, draw 1 and weight 60. -/
theorem c7_prepare_witness :
    0 < (toPrepared (fun _ => none) (fun _ => none) (fun _ => none)
      ⟨none, none, none⟩).odds_numeric :=
  (c7_prepare_invariant (fun _ => none) (fun _ => none) (fun _ => none)
    [⟨none, none, none⟩]).1
    (toPrepared (fun _ => none) (fun _ => none) (fun _ => none)
      ⟨none, none, none⟩) (by decide)

/-- Comparison of two original row indices by their final score. -/
def score_le (scores : List ℚ) (i j : ℕ) : Prop :=
  scores.getD i 0 ≤ scores.getD j 0

instance (scores : List ℚ) : DecidableRel (score_le scores) := fun i j =>
  inferInstanceAs (Decidable (scores.getD i 0 ≤ scores.getD j 0))

instance (scores : List ℚ) : IsTotal ℕ (score_le scores) :=
  ⟨fun a b => le_total (scores.getD a 0) (scores.getD b 0)⟩

instance (scores : List ℚ) : IsTrans ℕ (score_le scores) :=
  ⟨fun _ _ _ hab hbc => le_trans hab hbc⟩

/-- Contract of numpy argsort under pandas' default kind (quicksort, i.e.
    introsort): the returned index list is a permutation of the given index
    list and is ascending in the score key.  Stability is deliberately NOT
    part of the contract: introsort reorders equal keys once the array
    exceeds its 16-element insertion-sort threshold, so the code guarantees
    no particular order among tied scores. -/
def ValidKernel (k : List ℚ → List ℕ → List ℕ) : Prop :=
  ∀ (scores : List ℚ) (idx : List ℕ),
    (k scores idx).Perm idx ∧ (k scores idx).Pairwise (score_le scores)

/-- pandas nargsort for sort_values(ascending=False) at App.py line 757:
    reverse the index array, argsort it ascending with numpy's default
    kernel, then reverse the resulting indexer.  The kernel is any function
    satisfying the numpy argsort contract above. -/
def nargsort_desc (k : List ℚ → List ℕ → List ℕ) (scores : List ℚ) : List ℕ :=
  (k scores (List.range scores.length).reverse).reverse

/-- Ranked table skeleton, App.py lines 757-758: the original row indices in
    ranked order, each paired with its 1-based rank (rang column). -/
def rang (k : List ℚ → List ℕ → List ℕ) (scores : List ℚ) : List (ℕ × ℕ) :=
  (nargsort_desc k scores).enum.map (fun p => (p.2, p.1 + 1))

/-- One admissible argsort kernel: pre-sort the indices ascending, then
    stable-sort them by score.  It satisfies the numpy contract but orders
    equal keys by index value rather than by input position. -/
def tie_break_kernel (scores : List ℚ) (idx : List ℕ) : List ℕ :=
  List.insertionSort (score_le scores)
    (List.insertionSort (fun i j : ℕ => i ≤ j) idx)

theorem tie_break_kernel_valid : ValidKernel tie_break_kernel := by
  intro scores idx
  constructor
  · exact (List.perm_insertionSort _ _).trans (List.perm_insertionSort _ _)
  · exact List.sorted_insertionSort _ _

theorem length_nargsort_desc (k : List ℚ → List ℕ → List ℕ)
    (hk : ValidKernel k) (scores : List ℚ) :
    (nargsort_desc k scores).length = scores.length := by
  rw [nargsort_desc, List.length_reverse, (hk scores _).1.length_eq,
    List.length_reverse, List.length_range]

theorem rang_map_snd (k : List ℚ → List ℕ → List ℕ)
    (hk : ValidKernel k) (scores : List ℚ) :
    (rang k scores).map Prod.snd = List.range' 1 scores.length := by
  rw [rang, List.map_map]
  have h1 : (Prod.snd ∘ fun p : ℕ × ℕ => (p.2, p.1 + 1)) =
      ((fun i => i + 1) ∘ Prod.fst) := rfl
  rw [h1, ← List.map_map, List.enum_map_fst, length_nargsort_desc k hk,
    List.range'_eq_map_range]
  exact List.map_congr_left (fun i _ => by omega)

theorem sum_range'_one (n : ℕ) : (List.range' 1 n).sum * 2 = n * (n + 1) := by
  induction n with
  | zero => rfl
  | succ n ih =>
    calc (List.range' 1 (n + 1)).sum * 2
        = ((List.range' 1 n).sum + (1 + n)) * 2 := by
          rw [List.range'_1_concat, List.sum_append, List.sum_cons, List.sum_nil,
            Nat.add_zero]
      _ = (List.range' 1 n).sum * 2 + (1 + n) * 2 := by ring
      _ = n * (n + 1) + (1 + n) * 2 := by rw [ih]
      _ = (n + 1) * (n + 1 + 1) := by ring

theorem nargsort_desc_perm (k : List ℚ → List ℕ → List ℕ)
    (hk : ValidKernel k) (scores : List ℚ) :
    (nargsort_desc k scores).Perm (List.range scores.length) := by
  rw [nargsort_desc]
  exact (List.reverse_perm _).trans
    (((hk scores _).1).trans (List.reverse_perm _))

/-- Claim C3, counterexample: an argsort kernel meeting the numpy contract
    (a sorted permutation; stability is not promised) ranks the two tied
    entries of the score list [1, 1] as (entry 1, rank 1), (entry 0, rank 2):
    the entry that came first in the input gets rank 2, so the claimed
    stability (ties keep their original input order, which here demands
    ranks [(0, 1), (1, 2)]) is not implied by the code. -/
theorem c3_stability_counterexample :
    ValidKernel tie_break_kernel ∧
    rang tie_break_kernel [1, 1] = [(1, 1), (0, 2)] ∧
    [((1 : ℕ), (1 : ℕ)), (0, 2)] ≠ [(0, 1), (1, 2)] :=
  ⟨tie_break_kernel_valid, by decide, by decide⟩

/-- Claim C3, amended: for every argsort kernel satisfying the numpy
    contract, the ranking is descending in final score and assigns exactly
    the 1-based ranks 1..N — a permutation with no duplicates or gaps, of
    sum N(N+1)/2 — over a permutation of the original entries; the relative
    order of entries with equal final scores is whatever the (unstable)
    kernel produced and is not guaranteed to be the original input order. -/
theorem c3_ranking_amended (k : List ℚ → List ℕ → List ℕ)
    (hk : ValidKernel k) (scores : List ℚ) :
    (rang k scores).map Prod.snd = List.range' 1 scores.length ∧
    ((rang k scores).map Prod.snd).sum * 2 = scores.length * (scores.length + 1) ∧
    ((rang k scores).map Prod.fst).Perm (List.range scores.length) ∧
    (nargsort_desc k scores).Pairwise
      (fun i j => scores.getD j 0 ≤ scores.getD i 0) := by
  refine ⟨rang_map_snd k hk scores, ?_, ?_, ?_⟩
  · rw [rang_map_snd k hk scores]
    exact sum_range'_one scores.length
  · have h1 : (rang k scores).map Prod.fst = nargsort_desc k scores := by
      rw [rang, List.map_map]
      have h2 : (Prod.fst ∘ fun p : ℕ × ℕ => (p.2, p.1 + 1)) =
          (Prod.snd : ℕ × ℕ → ℕ) := rfl
      rw [h2, List.enum_map_snd]
    rw [h1]
    exact nargsort_desc_perm k hk scores
  · rw [nargsort_desc, List.pairwise_reverse]
    exact (hk scores _).2

/-- Witness for the amended claim C3 at a concrete admissible kernel and a
    concrete race of three scores. -/
theorem c3_ranking_witness :
    (rang tie_break_kernel [3, 1, 2]).map Prod.snd = List.range' 1 3 ∧
    ((rang tie_break_kernel [3, 1, 2]).map Prod.snd).sum * 2 = 3 * (3 + 1) ∧
    ((rang tie_break_kernel [3, 1, 2]).map Prod.fst).Perm (List.range 3) ∧
    (nargsort_desc tie_break_kernel [3, 1, 2]).Pairwise
      (fun i j => ([3, 1, 2] : List ℚ).getD j 0 ≤ ([3, 1, 2] : List ℚ).getD i 0) :=
  c3_ranking_amended tie_break_kernel tie_break_kernel_valid [3, 1, 2]

end App
